import Mathlib

/-!
# Impacted accounts of operations and transactions

A shallow embedding of `libraries/app/impacted.cpp`: the visitor
`get_impacted_account_visitor`, `operation_get_impacted_accounts` and
`transaction_get_impacted_accounts`, together with the container they write to
(`flat_set<account_name_type>`).

The C++ functions fill a set passed by reference; here they take the set and
return the updated set.
-/

namespace steemit

/-! ## Account names and the flat set -/

/-- Modelled from the spec: `account_name_type` (declared in the protocol library) is an
immutable text value; equality and ordering are byte-wise. -/
structure account_name_type where
  data : String
deriving DecidableEq, Repr

/-- The default-constructed account name, `account_name_type()`: the empty name. -/
def account_name_type.empty : account_name_type := ⟨""⟩

/-- The length of a name, `size()`. -/
def account_name_type.size (a : account_name_type) : Nat := a.data.length

instance : Inhabited account_name_type := ⟨account_name_type.empty⟩

/-- Names are ordered lexicographically, character by character. -/
instance : LinearOrder account_name_type :=
  LinearOrder.lift' (fun a : account_name_type => a.data.toList)
    (fun a b h => by
      cases a
      cases b
      simp only at h
      congr
      exact String.ext h)

/-- The container `flat_set<account_name_type>`: the elements in storage order. The C++
container keeps them strictly ascending; the functions below do not require it of their
argument, `flat_set.valid` states it. -/
abbrev flat_set := List account_name_type

/-- The class invariant of a flat set: strictly ascending storage. -/
def flat_set.valid (s : flat_set) : Prop := List.Sorted (fun a b => a < b) s

/-- The call `s.insert(x)`: find the first element not less than `x`; when that element is
equivalent to `x` the set is left alone, otherwise `x` is put in front of it. -/
def flat_set.insert (x : account_name_type) : flat_set → flat_set
  | [] => [x]
  | y :: ys =>
    if y < x then y :: flat_set.insert x ys
    else if x < y then x :: y :: ys
    else y :: ys

/-- The loop `for (auto x : xs) s.insert(x);`. -/
def flat_set.insert_all (xs : List account_name_type) (s : flat_set) : flat_set :=
  xs.foldl (fun acc x => flat_set.insert x acc) s

/-! ## Operations

The operation structs are declared in the protocol library. Each struct below has the
account-name fields the visitor reads, and the further fields named in the specification
of the resolver. -/

/-- Modelled from the spec: the Operation Authority Accessor. Every operation struct derives
from `base_operation`, whose three methods `get_required_posting_authorities`,
`get_required_active_authorities` and `get_required_owner_authorities` add to the set they
are given the account names required for that authority. The three lists are the names the
methods of an operation add; by default there are none. -/
structure base_operation where
  posting_authorities : List account_name_type := []
  active_authorities : List account_name_type := []
  owner_authorities : List account_name_type := []
deriving DecidableEq, Repr

def base_operation.get_required_posting_authorities (op : base_operation) (a : flat_set) :
    flat_set :=
  flat_set.insert_all op.posting_authorities a

def base_operation.get_required_active_authorities (op : base_operation) (a : flat_set) :
    flat_set :=
  flat_set.insert_all op.active_authorities a

def base_operation.get_required_owner_authorities (op : base_operation) (a : flat_set) :
    flat_set :=
  flat_set.insert_all op.owner_authorities a

structure account_create_operation extends base_operation where
  new_account_name : account_name_type
  creator : account_name_type
deriving DecidableEq, Repr

structure account_update_operation extends base_operation where
  account : account_name_type
deriving DecidableEq, Repr

structure comment_operation extends base_operation where
  parent_author : account_name_type
  author : account_name_type
deriving DecidableEq, Repr

structure delete_comment_operation extends base_operation where
  author : account_name_type
deriving DecidableEq, Repr

structure vote_operation extends base_operation where
  voter : account_name_type
  author : account_name_type
deriving DecidableEq, Repr

/-- A virtual operation: generated by the ledger, it has no signer. -/
structure author_reward_operation where
  author : account_name_type
deriving DecidableEq, Repr

/-- A virtual operation. -/
structure curation_reward_operation where
  curator : account_name_type
deriving DecidableEq, Repr

/-- A virtual operation. -/
structure liquidity_reward_operation where
  owner : account_name_type
deriving DecidableEq, Repr

/-- A virtual operation. -/
structure interest_operation where
  owner : account_name_type
deriving DecidableEq, Repr

/-- A virtual operation. -/
structure fill_convert_request_operation where
  owner : account_name_type
deriving DecidableEq, Repr

structure transfer_operation extends base_operation where
  «from» : account_name_type
  «to» : account_name_type
  amount : Nat := 0
  memo : String := ""
deriving DecidableEq, Repr

structure transfer_to_vesting_operation extends base_operation where
  «from» : account_name_type
  «to» : account_name_type
  amount : Nat := 0
deriving DecidableEq, Repr

structure withdraw_vesting_operation extends base_operation where
  account : account_name_type
deriving DecidableEq, Repr

structure witness_update_operation extends base_operation where
  owner : account_name_type
deriving DecidableEq, Repr

structure account_witness_vote_operation extends base_operation where
  account : account_name_type
  witness : account_name_type
deriving DecidableEq, Repr

structure account_witness_proxy_operation extends base_operation where
  account : account_name_type
  proxy : account_name_type
deriving DecidableEq, Repr

structure feed_publish_operation extends base_operation where
  publisher : account_name_type
deriving DecidableEq, Repr

structure limit_order_create_operation extends base_operation where
  owner : account_name_type
deriving DecidableEq, Repr

/-- A virtual operation. -/
structure fill_order_operation where
  current_owner : account_name_type
  open_owner : account_name_type
deriving DecidableEq, Repr

structure limit_order_cancel_operation extends base_operation where
  owner : account_name_type
deriving DecidableEq, Repr

structure pow_operation extends base_operation where
  worker_account : account_name_type
deriving DecidableEq, Repr

/-- A virtual operation. -/
structure fill_vesting_withdraw_operation where
  from_account : account_name_type
  to_account : account_name_type
deriving DecidableEq, Repr

/-- A virtual operation. -/
structure shutdown_witness_operation where
  owner : account_name_type
deriving DecidableEq, Repr

structure custom_operation extends base_operation where
  required_auths : List account_name_type
deriving DecidableEq, Repr

structure request_account_recovery_operation extends base_operation where
  recovery_account : account_name_type
  account_to_recover : account_name_type
deriving DecidableEq, Repr

structure recover_account_operation extends base_operation where
  account_to_recover : account_name_type
deriving DecidableEq, Repr

structure change_recovery_account_operation extends base_operation where
  account_to_recover : account_name_type
  new_recovery_account : account_name_type
deriving DecidableEq, Repr

structure escrow_transfer_operation extends base_operation where
  «from» : account_name_type
  «to» : account_name_type
  agent : account_name_type
deriving DecidableEq, Repr

structure escrow_approve_operation extends base_operation where
  «from» : account_name_type
  «to» : account_name_type
  agent : account_name_type
  who : account_name_type
deriving DecidableEq, Repr

structure escrow_dispute_operation extends base_operation where
  «from» : account_name_type
  «to» : account_name_type
  agent : account_name_type
  who : account_name_type
deriving DecidableEq, Repr

structure escrow_release_operation extends base_operation where
  «from» : account_name_type
  «to» : account_name_type
  agent : account_name_type
  who : account_name_type
deriving DecidableEq, Repr

structure transfer_to_savings_operation extends base_operation where
  «from» : account_name_type
  «to» : account_name_type
deriving DecidableEq, Repr

structure transfer_from_savings_operation extends base_operation where
  «from» : account_name_type
  «to» : account_name_type
deriving DecidableEq, Repr

structure cancel_transfer_from_savings_operation extends base_operation where
  «from» : account_name_type
deriving DecidableEq, Repr

structure decline_voting_rights_operation extends base_operation where
  account : account_name_type
deriving DecidableEq, Repr

/-- The variant `operation`. The kinds the visitor has an overload for are listed one by
one; `other` stands for an operation of any kind `T` that the visitor has no overload for,
of which the generic overload uses the three authority methods only (`is_virtual` tells
whether that kind is generated by the ledger). -/
inductive operation where
  | account_create (op : account_create_operation)
  | account_update (op : account_update_operation)
  | comment (op : comment_operation)
  | delete_comment (op : delete_comment_operation)
  | vote (op : vote_operation)
  | author_reward (op : author_reward_operation)
  | curation_reward (op : curation_reward_operation)
  | liquidity_reward (op : liquidity_reward_operation)
  | interest (op : interest_operation)
  | fill_convert_request (op : fill_convert_request_operation)
  | transfer (op : transfer_operation)
  | transfer_to_vesting (op : transfer_to_vesting_operation)
  | withdraw_vesting (op : withdraw_vesting_operation)
  | witness_update (op : witness_update_operation)
  | account_witness_vote (op : account_witness_vote_operation)
  | account_witness_proxy (op : account_witness_proxy_operation)
  | feed_publish (op : feed_publish_operation)
  | limit_order_create (op : limit_order_create_operation)
  | fill_order (op : fill_order_operation)
  | limit_order_cancel (op : limit_order_cancel_operation)
  | pow (op : pow_operation)
  | fill_vesting_withdraw (op : fill_vesting_withdraw_operation)
  | shutdown_witness (op : shutdown_witness_operation)
  | custom (op : custom_operation)
  | request_account_recovery (op : request_account_recovery_operation)
  | recover_account (op : recover_account_operation)
  | change_recovery_account (op : change_recovery_account_operation)
  | escrow_transfer (op : escrow_transfer_operation)
  | escrow_approve (op : escrow_approve_operation)
  | escrow_dispute (op : escrow_dispute_operation)
  | escrow_release (op : escrow_release_operation)
  | transfer_to_savings (op : transfer_to_savings_operation)
  | transfer_from_savings (op : transfer_from_savings_operation)
  | cancel_transfer_from_savings (op : cancel_transfer_from_savings_operation)
  | decline_voting_rights (op : decline_voting_rights_operation)
  | other (is_virtual : Bool) (op : base_operation)
deriving DecidableEq, Repr

/-- Modelled from the spec: the Virtual Operation Classifier, a static property of the kind:
the reward, interest, fill and shutdown kinds are virtual, the user-submitted kinds are
not. -/
def operation.is_virtual : operation → Bool
  | .author_reward _ => true
  | .curation_reward _ => true
  | .liquidity_reward _ => true
  | .interest _ => true
  | .fill_convert_request _ => true
  | .fill_order _ => true
  | .fill_vesting_withdraw _ => true
  | .shutdown_witness _ => true
  | .other v _ => v
  | _ => false

/-- Modelled from the spec: the Operation Authority Accessor of an operation held in the
variant. For a virtual kind the accessor returns nothing. -/
def operation.authorities : operation → base_operation
  | .account_create op => op.tobase_operation
  | .account_update op => op.tobase_operation
  | .comment op => op.tobase_operation
  | .delete_comment op => op.tobase_operation
  | .vote op => op.tobase_operation
  | .author_reward _ => {}
  | .curation_reward _ => {}
  | .liquidity_reward _ => {}
  | .interest _ => {}
  | .fill_convert_request _ => {}
  | .transfer op => op.tobase_operation
  | .transfer_to_vesting op => op.tobase_operation
  | .withdraw_vesting op => op.tobase_operation
  | .witness_update op => op.tobase_operation
  | .account_witness_vote op => op.tobase_operation
  | .account_witness_proxy op => op.tobase_operation
  | .feed_publish op => op.tobase_operation
  | .limit_order_create op => op.tobase_operation
  | .fill_order _ => {}
  | .limit_order_cancel op => op.tobase_operation
  | .pow op => op.tobase_operation
  | .fill_vesting_withdraw _ => {}
  | .shutdown_witness _ => {}
  | .custom op => op.tobase_operation
  | .request_account_recovery op => op.tobase_operation
  | .recover_account op => op.tobase_operation
  | .change_recovery_account op => op.tobase_operation
  | .escrow_transfer op => op.tobase_operation
  | .escrow_approve op => op.tobase_operation
  | .escrow_dispute op => op.tobase_operation
  | .escrow_release op => op.tobase_operation
  | .transfer_to_savings op => op.tobase_operation
  | .transfer_from_savings op => op.tobase_operation
  | .cancel_transfer_from_savings op => op.tobase_operation
  | .decline_voting_rights op => op.tobase_operation
  | .other _ op => op

/-- The set that the three authority methods of an operation fill, starting from the empty
set: posting, then active, then owner. -/
def operation.required_authorities (op : operation) : flat_set :=
  op.authorities.get_required_owner_authorities
    (op.authorities.get_required_active_authorities
      (op.authorities.get_required_posting_authorities []))

/-- A transaction: the sequence of its operations. -/
structure transaction where
  operations : List operation
deriving DecidableEq, Repr

/-! ## The visitor -/

/-- The visitor `get_impacted_account_visitor`, applied by `op.visit(vtor)`: the overload
for the kind of `op` runs on the set `_impacted`. -/
def get_impacted_account_visitor (_impacted : flat_set) : operation → flat_set
  | .account_create op =>
    flat_set.insert op.creator (flat_set.insert op.new_account_name _impacted)
  | .account_update op => flat_set.insert op.account _impacted
  | .comment op =>
    let s := flat_set.insert op.author _impacted
    if op.parent_author.size ≠ 0 then flat_set.insert op.parent_author s else s
  | .delete_comment op => flat_set.insert op.author _impacted
  | .vote op => flat_set.insert op.author (flat_set.insert op.voter _impacted)
  | .author_reward op => flat_set.insert op.author _impacted
  | .curation_reward op => flat_set.insert op.curator _impacted
  | .liquidity_reward op => flat_set.insert op.owner _impacted
  | .interest op => flat_set.insert op.owner _impacted
  | .fill_convert_request op => flat_set.insert op.owner _impacted
  | .transfer op => flat_set.insert op.«to» (flat_set.insert op.«from» _impacted)
  | .transfer_to_vesting op =>
    let s := flat_set.insert op.«from» _impacted
    if op.«to» ≠ account_name_type.empty ∧ op.«to» ≠ op.«from» then flat_set.insert op.«to» s
    else s
  | .withdraw_vesting op => flat_set.insert op.account _impacted
  | .witness_update op => flat_set.insert op.owner _impacted
  | .account_witness_vote op =>
    flat_set.insert op.witness (flat_set.insert op.account _impacted)
  | .account_witness_proxy op =>
    flat_set.insert op.proxy (flat_set.insert op.account _impacted)
  | .feed_publish op => flat_set.insert op.publisher _impacted
  | .limit_order_create op => flat_set.insert op.owner _impacted
  | .fill_order op =>
    flat_set.insert op.open_owner (flat_set.insert op.current_owner _impacted)
  | .limit_order_cancel op => flat_set.insert op.owner _impacted
  | .pow op => flat_set.insert op.worker_account _impacted
  | .fill_vesting_withdraw op =>
    flat_set.insert op.to_account (flat_set.insert op.from_account _impacted)
  | .shutdown_witness op => flat_set.insert op.owner _impacted
  | .custom op => flat_set.insert_all op.required_auths _impacted
  | .request_account_recovery op => flat_set.insert op.account_to_recover _impacted
  | .recover_account op => flat_set.insert op.account_to_recover _impacted
  | .change_recovery_account op => flat_set.insert op.account_to_recover _impacted
  | .escrow_transfer op =>
    flat_set.insert op.agent (flat_set.insert op.«to» (flat_set.insert op.«from» _impacted))
  | .escrow_approve op =>
    flat_set.insert op.agent (flat_set.insert op.«to» (flat_set.insert op.«from» _impacted))
  | .escrow_dispute op =>
    flat_set.insert op.agent (flat_set.insert op.«to» (flat_set.insert op.«from» _impacted))
  | .escrow_release op =>
    flat_set.insert op.agent (flat_set.insert op.«to» (flat_set.insert op.«from» _impacted))
  | .transfer_to_savings op => flat_set.insert op.«to» (flat_set.insert op.«from» _impacted)
  | .transfer_from_savings op => flat_set.insert op.«to» (flat_set.insert op.«from» _impacted)
  | .cancel_transfer_from_savings op => flat_set.insert op.«from» _impacted
  | .decline_voting_rights op => flat_set.insert op.account _impacted
  | .other _ op =>
    op.get_required_owner_authorities
      (op.get_required_active_authorities (op.get_required_posting_authorities _impacted))

/-- The function `operation_get_impacted_accounts(op, result)`; the value is `result`
after the call. -/
def operation_get_impacted_accounts (op : operation) (result : flat_set) : flat_set :=
  get_impacted_account_visitor result op

/-- The function `transaction_get_impacted_accounts(tx, result)`; the value is `result`
after the call. -/
def transaction_get_impacted_accounts (tx : transaction) (result : flat_set) : flat_set :=
  tx.operations.foldl (fun r op => operation_get_impacted_accounts op r) result

/-- Shorthand for an account name given by its text. -/
def acct (s : String) : account_name_type := ⟨s⟩

/-- Two operations are of the same kind, a kind with an overload of its own, and agree on
the account-name fields that the overload reads; nothing is asked of any other field nor of
what the authority methods return. -/
def operation.same_rule_fields (a b : operation) : Prop :=
  match a with
  | .account_create o1 => match b with
    | .account_create o2 => o1.new_account_name = o2.new_account_name ∧ o1.creator = o2.creator
    | _ => False
  | .account_update o1 => match b with
    | .account_update o2 => o1.account = o2.account
    | _ => False
  | .comment o1 => match b with
    | .comment o2 => o1.author = o2.author ∧ o1.parent_author = o2.parent_author
    | _ => False
  | .delete_comment o1 => match b with
    | .delete_comment o2 => o1.author = o2.author
    | _ => False
  | .vote o1 => match b with
    | .vote o2 => o1.voter = o2.voter ∧ o1.author = o2.author
    | _ => False
  | .author_reward o1 => match b with
    | .author_reward o2 => o1.author = o2.author
    | _ => False
  | .curation_reward o1 => match b with
    | .curation_reward o2 => o1.curator = o2.curator
    | _ => False
  | .liquidity_reward o1 => match b with
    | .liquidity_reward o2 => o1.owner = o2.owner
    | _ => False
  | .interest o1 => match b with
    | .interest o2 => o1.owner = o2.owner
    | _ => False
  | .fill_convert_request o1 => match b with
    | .fill_convert_request o2 => o1.owner = o2.owner
    | _ => False
  | .transfer o1 => match b with
    | .transfer o2 => o1.«from» = o2.«from» ∧ o1.«to» = o2.«to»
    | _ => False
  | .transfer_to_vesting o1 => match b with
    | .transfer_to_vesting o2 => o1.«from» = o2.«from» ∧ o1.«to» = o2.«to»
    | _ => False
  | .withdraw_vesting o1 => match b with
    | .withdraw_vesting o2 => o1.account = o2.account
    | _ => False
  | .witness_update o1 => match b with
    | .witness_update o2 => o1.owner = o2.owner
    | _ => False
  | .account_witness_vote o1 => match b with
    | .account_witness_vote o2 => o1.account = o2.account ∧ o1.witness = o2.witness
    | _ => False
  | .account_witness_proxy o1 => match b with
    | .account_witness_proxy o2 => o1.account = o2.account ∧ o1.proxy = o2.proxy
    | _ => False
  | .feed_publish o1 => match b with
    | .feed_publish o2 => o1.publisher = o2.publisher
    | _ => False
  | .limit_order_create o1 => match b with
    | .limit_order_create o2 => o1.owner = o2.owner
    | _ => False
  | .fill_order o1 => match b with
    | .fill_order o2 => o1.current_owner = o2.current_owner ∧ o1.open_owner = o2.open_owner
    | _ => False
  | .limit_order_cancel o1 => match b with
    | .limit_order_cancel o2 => o1.owner = o2.owner
    | _ => False
  | .pow o1 => match b with
    | .pow o2 => o1.worker_account = o2.worker_account
    | _ => False
  | .fill_vesting_withdraw o1 => match b with
    | .fill_vesting_withdraw o2 => o1.from_account = o2.from_account ∧ o1.to_account = o2.to_account
    | _ => False
  | .shutdown_witness o1 => match b with
    | .shutdown_witness o2 => o1.owner = o2.owner
    | _ => False
  | .custom o1 => match b with
    | .custom o2 => o1.required_auths = o2.required_auths
    | _ => False
  | .request_account_recovery o1 => match b with
    | .request_account_recovery o2 => o1.account_to_recover = o2.account_to_recover
    | _ => False
  | .recover_account o1 => match b with
    | .recover_account o2 => o1.account_to_recover = o2.account_to_recover
    | _ => False
  | .change_recovery_account o1 => match b with
    | .change_recovery_account o2 => o1.account_to_recover = o2.account_to_recover
    | _ => False
  | .escrow_transfer o1 => match b with
    | .escrow_transfer o2 => o1.«from» = o2.«from» ∧ o1.«to» = o2.«to» ∧ o1.agent = o2.agent
    | _ => False
  | .escrow_approve o1 => match b with
    | .escrow_approve o2 => o1.«from» = o2.«from» ∧ o1.«to» = o2.«to» ∧ o1.agent = o2.agent
    | _ => False
  | .escrow_dispute o1 => match b with
    | .escrow_dispute o2 => o1.«from» = o2.«from» ∧ o1.«to» = o2.«to» ∧ o1.agent = o2.agent
    | _ => False
  | .escrow_release o1 => match b with
    | .escrow_release o2 => o1.«from» = o2.«from» ∧ o1.«to» = o2.«to» ∧ o1.agent = o2.agent
    | _ => False
  | .transfer_to_savings o1 => match b with
    | .transfer_to_savings o2 => o1.«from» = o2.«from» ∧ o1.«to» = o2.«to»
    | _ => False
  | .transfer_from_savings o1 => match b with
    | .transfer_from_savings o2 => o1.«from» = o2.«from» ∧ o1.«to» = o2.«to»
    | _ => False
  | .cancel_transfer_from_savings o1 => match b with
    | .cancel_transfer_from_savings o2 => o1.«from» = o2.«from»
    | _ => False
  | .decline_voting_rights o1 => match b with
    | .decline_voting_rights o2 => o1.account = o2.account
    | _ => False
  | .other _ _ => False

/-- The simpler rule that the transfer_to_vesting overload is compared with: insert `from`;
insert `to` iff `to` is not the empty account name. -/
def transfer_to_vesting_simple_rule (op : transfer_to_vesting_operation)
    (_impacted : flat_set) : flat_set :=
  let s := flat_set.insert op.«from» _impacted
  if op.«to» ≠ account_name_type.empty then flat_set.insert op.«to» s else s

/-! ## The discussion query -/

/-- The class `discussion_query` of `database_api.hpp`. A `std::set<std::string>` is given
by its elements, `uint32_t` values are natural numbers below `2 ^ 32`. -/
structure discussion_query where
  limit : Nat := 0
  select_authors : List String := []
  select_tags : List String := []
  filter_tags : List String := []
  truncate_body : Nat := 0
  start_author : Option String := none
  start_permlink : Option String := none
  parent_author : Option String := none
  parent_permlink : Option String := none
deriving DecidableEq, Repr

/-- The macro `FC_ASSERT(cond)`: the call goes on when the condition holds and fails with
an exception, here the text of the condition, when it does not. -/
def FC_ASSERT (cond : Bool) (text : String) : Except String Unit :=
  if cond then .ok () else .error text

/-- The loop of `discussion_query::validate` over `filter_tags`: each tag in turn is
asserted not to be found in `select_tags`. -/
def discussion_query.validate_filter_tags (select_tags : List String) :
    List String → Except String Unit
  | [] => .ok ()
  | tag :: rest => do
    FC_ASSERT (!(select_tags.contains tag)) "select_tags.find(iterator) == select_tags.end()"
    discussion_query.validate_filter_tags select_tags rest

/-- The method `discussion_query::validate`. -/
def discussion_query.validate (q : discussion_query) : Except String Unit := do
  FC_ASSERT (decide (q.limit ≤ 100)) "limit <= 100"
  discussion_query.validate_filter_tags q.select_tags q.filter_tags

/-! ## The account history index

The index records an applied operation against every account it impacts; the call
`get_account_history` reads it. Of the call, `database_api.hpp` has the declaration and its
documentation. -/

/-- Modelled from the spec: an account-history entry, the tuple `(account,
sequence_number, operation, is_virtual, block_height, transaction_position)`. -/
structure account_history_entry where
  account : account_name_type
  sequence_number : Nat
  op : operation
  is_virtual : Bool
  block_height : Nat
  transaction_position : Nat
deriving DecidableEq, Repr

/-- Modelled from the spec: the Account History Index, the mapping from an account to its
log of entries, in the order in which they were appended. -/
abbrev account_history_index := account_name_type → List account_history_entry

/-- Modelled from the spec: the index without any entry. -/
def account_history_index.empty : account_history_index := fun _ => []

/-- Modelled from the spec: the base value of the sequence numbers of an account. The
declaration of `get_account_history` documents sequence numbers from 0 to N. -/
def account_history_index.base : Nat := 0

/-- Modelled from the spec: the next sequence number of a log, one greater than the
previous maximum, and the base value for a log without entries. -/
def account_history_index.next_sequence_number (log : List account_history_entry) : Nat :=
  log.foldl (fun m e => max m (e.sequence_number + 1)) account_history_index.base

/-- Modelled from the spec: `append(account, operation, is_virtual, block_height, position)
-> sequence_number`: one entry is added at the end of the log of the account, under the
next sequence number of that account, which is returned. -/
def account_history_index.append (idx : account_history_index) (account : account_name_type)
    (op : operation) (is_virtual : Bool) (block_height position : Nat) :
    account_history_index × Nat :=
  let seq := account_history_index.next_sequence_number (idx account)
  (fun a =>
    if a = account then idx a ++ [⟨account, seq, op, is_virtual, block_height, position⟩]
    else idx a,
   seq)

/-- Modelled from the spec: the indexing of one applied operation: append is invoked once
per pair of an impacted account and the operation, the impacted accounts being those
`operation_get_impacted_accounts` yields on an empty set. -/
def account_history_index.index_operation (idx : account_history_index) (op : operation)
    (block_height position : Nat) : account_history_index :=
  (operation_get_impacted_accounts op []).foldl
    (fun i a => (i.append a op op.is_virtual block_height position).1) idx

/-- Modelled from the spec: appending a sequence of operations, each with its block height
and position, for one account, in order. -/
def account_history_index.append_all (idx : account_history_index)
    (account : account_name_type) (ops : List (operation × Nat × Nat)) :
    account_history_index :=
  ops.foldl (fun i o => (i.append account o.1 (o.1.is_virtual) o.2.1 o.2.2).1) idx

/-- An index in which alice has ten entries, with the sequence numbers 0 to 9. -/
def ten_entries : account_history_index :=
  account_history_index.append_all account_history_index.empty (acct "alice")
    (List.replicate 10 (.transfer { «from» := acct "alice", «to» := acct "bob" }, 1, 0))

end steemit

namespace steemit

/-! ## The flat set: membership and the storage invariant -/

theorem flat_set.insert_cons (x y : account_name_type) (ys : flat_set) :
    flat_set.insert x (y :: ys) =
      if y < x then y :: flat_set.insert x ys else if x < y then x :: y :: ys else y :: ys :=
  rfl

theorem flat_set.mem_insert (a x : account_name_type) (s : flat_set) :
    a ∈ flat_set.insert x s ↔ a = x ∨ a ∈ s := by
  induction s with
  | nil => simp [flat_set.insert]
  | cons y ys ih =>
    rw [flat_set.insert_cons]
    by_cases h1 : y < x
    · rw [if_pos h1, List.mem_cons, ih, List.mem_cons]
      tauto
    · rw [if_neg h1]
      by_cases h2 : x < y
      · rw [if_pos h2, List.mem_cons]
      · have hxy : x = y := le_antisymm (not_lt.mp h1) (not_lt.mp h2)
        rw [if_neg h2, hxy, List.mem_cons]
        tauto

theorem flat_set.mem_insert_all (a : account_name_type) (xs : List account_name_type)
    (s : flat_set) : a ∈ flat_set.insert_all xs s ↔ a ∈ xs ∨ a ∈ s := by
  induction xs generalizing s with
  | nil => simp [flat_set.insert_all]
  | cons x xs ih =>
    have h := ih (flat_set.insert x s)
    simp only [flat_set.insert_all, List.foldl_cons] at h ⊢
    rw [h, flat_set.mem_insert, List.mem_cons]
    tauto

theorem flat_set.insert_lower_bound (x b : account_name_type) (s : flat_set)
    (hb : ∀ a ∈ s, b < a) (hx : b < x) : ∀ a ∈ flat_set.insert x s, b < a := by
  intro a ha
  rcases (flat_set.mem_insert a x s).mp ha with h | h
  · exact h ▸ hx
  · exact hb a h

theorem flat_set.valid_insert (x : account_name_type) (s : flat_set) (hs : flat_set.valid s) :
    flat_set.valid (flat_set.insert x s) := by
  induction s with
  | nil => simp [flat_set.insert, flat_set.valid]
  | cons y ys ih =>
    unfold flat_set.valid at hs ih ⊢
    have hy := List.sorted_cons.mp hs
    rw [flat_set.insert_cons]
    by_cases h1 : y < x
    · rw [if_pos h1]
      exact List.sorted_cons.mpr ⟨flat_set.insert_lower_bound x y ys hy.1 h1, ih hy.2⟩
    · rw [if_neg h1]
      by_cases h2 : x < y
      · rw [if_pos h2]
        refine List.sorted_cons.mpr ⟨?_, hs⟩
        intro a ha
        rcases List.mem_cons.mp ha with h | h
        · exact h ▸ h2
        · exact lt_trans h2 (hy.1 a h)
      · rw [if_neg h2]
        exact hs

theorem flat_set.valid_insert_all (xs : List account_name_type) (s : flat_set)
    (hs : flat_set.valid s) : flat_set.valid (flat_set.insert_all xs s) := by
  induction xs generalizing s with
  | nil => simpa [flat_set.insert_all] using hs
  | cons x xs ih =>
    have h := ih (flat_set.insert x s) (flat_set.valid_insert x s hs)
    simpa [flat_set.insert_all] using h

theorem flat_set.valid_nil : flat_set.valid [] := by
  simp [flat_set.valid]

/-- Two valid flat sets with the same elements are the same list. -/
theorem flat_set.ext_of_valid (s t : flat_set) (hs : flat_set.valid s) (ht : flat_set.valid t)
    (h : ∀ a, a ∈ s ↔ a ∈ t) : s = t := by
  unfold flat_set.valid at hs ht
  have hp : List.Perm s t :=
    (List.perm_ext_iff_of_nodup hs.nodup ht.nodup).mpr h
  exact List.eq_of_perm_of_sorted hp hs ht

/-! ## The accounts named by a rule -/

/-- An account is in the result of the call iff it was in the set before or the call on
the empty set yields it. -/
theorem mem_operation_get_impacted_accounts (op : operation) (result : flat_set)
    (a : account_name_type) :
    a ∈ operation_get_impacted_accounts op result ↔
      a ∈ result ∨ a ∈ operation_get_impacted_accounts op [] := by
  cases op <;>
    simp only [operation_get_impacted_accounts, get_impacted_account_visitor,
      base_operation.get_required_posting_authorities,
      base_operation.get_required_active_authorities,
      base_operation.get_required_owner_authorities] <;>
    (try split) <;>
    simp only [flat_set.mem_insert, flat_set.mem_insert_all, List.not_mem_nil, or_false] <;>
    tauto

theorem valid_operation_get_impacted_accounts (op : operation) (result : flat_set)
    (h : flat_set.valid result) : flat_set.valid (operation_get_impacted_accounts op result) := by
  cases op <;>
    simp only [operation_get_impacted_accounts, get_impacted_account_visitor,
      base_operation.get_required_posting_authorities,
      base_operation.get_required_active_authorities,
      base_operation.get_required_owner_authorities] <;>
    (try split) <;>
    first
      | exact h
      | (repeat (first
          | exact h
          | apply flat_set.valid_insert
          | apply flat_set.valid_insert_all))

theorem flat_set.insert_ne_nil (x : account_name_type) (s : flat_set) :
    flat_set.insert x s ≠ [] := by
  intro h
  have hx : x ∈ flat_set.insert x s := (flat_set.mem_insert x x s).mpr (Or.inl rfl)
  rw [h] at hx
  exact List.not_mem_nil x hx

theorem flat_set.insert_all_eq_nil (xs : List account_name_type) (s : flat_set) :
    flat_set.insert_all xs s = [] ↔ xs = [] ∧ s = [] := by
  constructor
  · intro h
    have hmem : ∀ a, ¬ (a ∈ xs ∨ a ∈ s) := by
      intro a ha
      have := (flat_set.mem_insert_all a xs s).mpr ha
      rw [h] at this
      exact List.not_mem_nil a this
    exact ⟨List.eq_nil_iff_forall_not_mem.mpr (fun a ha => hmem a (Or.inl ha)),
      List.eq_nil_iff_forall_not_mem.mpr (fun a ha => hmem a (Or.inr ha))⟩
  · rintro ⟨rfl, rfl⟩
    rfl

/-- An account is in the result of the call on a transaction iff it was in the set before
or the call on the empty set for one of the operations yields it. -/
theorem mem_transaction_get_impacted_accounts (ops : List operation) (result : flat_set)
    (a : account_name_type) :
    a ∈ transaction_get_impacted_accounts ⟨ops⟩ result ↔
      a ∈ result ∨ ∃ op ∈ ops, a ∈ operation_get_impacted_accounts op [] := by
  induction ops generalizing result with
  | nil => simp [transaction_get_impacted_accounts]
  | cons op ops ih =>
    have h := ih (operation_get_impacted_accounts op result)
    simp only [transaction_get_impacted_accounts, List.foldl_cons] at h ⊢
    rw [h, mem_operation_get_impacted_accounts op result a]
    simp only [List.mem_cons, exists_eq_or_imp]
    tauto

theorem valid_transaction_get_impacted_accounts (ops : List operation) (result : flat_set)
    (h : flat_set.valid result) :
    flat_set.valid (transaction_get_impacted_accounts ⟨ops⟩ result) := by
  induction ops generalizing result with
  | nil => simpa [transaction_get_impacted_accounts] using h
  | cons op ops ih =>
    have h2 := ih (operation_get_impacted_accounts op result)
      (valid_operation_get_impacted_accounts op result h)
    simpa [transaction_get_impacted_accounts] using h2

/-- Two transactions with the same operations, whatever their order and multiplicity, give
the same flat set. -/
theorem transaction_get_impacted_accounts_congr (ops1 ops2 : List operation)
    (h : ∀ op, op ∈ ops1 ↔ op ∈ ops2) :
    transaction_get_impacted_accounts ⟨ops1⟩ [] = transaction_get_impacted_accounts ⟨ops2⟩ [] := by
  apply flat_set.ext_of_valid
  · exact valid_transaction_get_impacted_accounts ops1 [] flat_set.valid_nil
  · exact valid_transaction_get_impacted_accounts ops2 [] flat_set.valid_nil
  · intro a
    rw [mem_transaction_get_impacted_accounts, mem_transaction_get_impacted_accounts]
    simp only [List.not_mem_nil, false_or]
    constructor
    · rintro ⟨op, hop, ha⟩
      exact ⟨op, (h op).mp hop, ha⟩
    · rintro ⟨op, hop, ha⟩
      exact ⟨op, (h op).mpr hop, ha⟩

theorem account_name_type.size_eq_zero (a : account_name_type) :
    a.size = 0 ↔ a = account_name_type.empty := by
  cases a with
  | mk d =>
    simp only [account_name_type.size, account_name_type.empty, account_name_type.mk.injEq]
    constructor
    · intro h
      apply String.ext
      exact List.length_eq_zero.mp h
    · intro h
      rw [h]
      rfl

/-- A second call on the same operation, into the set the first call filled, changes
nothing. -/
theorem operation_get_impacted_accounts_idem (op : operation) (result : flat_set)
    (h : flat_set.valid result) :
    operation_get_impacted_accounts op (operation_get_impacted_accounts op result) =
      operation_get_impacted_accounts op result := by
  have h1 := valid_operation_get_impacted_accounts op result h
  apply flat_set.ext_of_valid _ _ (valid_operation_get_impacted_accounts op _ h1) h1
  intro a
  rw [mem_operation_get_impacted_accounts op (operation_get_impacted_accounts op result) a,
    mem_operation_get_impacted_accounts op result a]
  tauto

theorem flat_set.insert_insert_self (x : account_name_type) (s : flat_set) :
    flat_set.insert x (flat_set.insert x s) = flat_set.insert x s := by
  induction s with
  | nil => simp [flat_set.insert]
  | cons y ys ih =>
    rw [flat_set.insert_cons]
    by_cases h1 : y < x
    · rw [if_pos h1, flat_set.insert_cons, if_pos h1, ih]
    · rw [if_neg h1]
      by_cases h2 : x < y
      · rw [if_pos h2, flat_set.insert_cons, if_neg (lt_irrefl x), if_neg (lt_irrefl x)]
      · rw [if_neg h2, flat_set.insert_cons, if_neg h1, if_neg h2]

/-! ## The account history index: sequence numbers -/

theorem account_history_index.next_sequence_number_append (log : List account_history_entry)
    (e : account_history_entry) :
    account_history_index.next_sequence_number (log ++ [e]) =
      max (account_history_index.next_sequence_number log) (e.sequence_number + 1) := by
  simp [account_history_index.next_sequence_number, List.foldl_append]

theorem account_history_index.lt_next_sequence_number (log : List account_history_entry) :
    ∀ e ∈ log, e.sequence_number < account_history_index.next_sequence_number log := by
  induction log using List.reverseRecOn with
  | nil => simp
  | append_singleton l x ih =>
    intro e he
    rw [account_history_index.next_sequence_number_append]
    rcases List.mem_append.mp he with h | h
    · exact lt_of_lt_of_le (ih e h) (le_max_left _ _)
    · rw [List.mem_singleton] at h
      subst h
      exact lt_of_lt_of_le (Nat.lt_succ_self _) (le_max_right _ _)

theorem account_history_index.next_sequence_number_eq_succ (log : List account_history_entry)
    (hne : log ≠ []) :
    ∃ e ∈ log, account_history_index.next_sequence_number log = e.sequence_number + 1 := by
  induction log using List.reverseRecOn with
  | nil => exact absurd rfl hne
  | append_singleton l x ih =>
    rw [account_history_index.next_sequence_number_append]
    by_cases hle : account_history_index.next_sequence_number l ≤ x.sequence_number + 1
    · exact ⟨x, by simp, max_eq_right hle⟩
    · have hl : l ≠ [] := by
        intro h
        subst h
        exact hle (Nat.zero_le _)
      obtain ⟨e, he, heq⟩ := ih hl
      refine ⟨e, List.mem_append.mpr (Or.inl he), ?_⟩
      rw [max_eq_left (le_of_lt (not_le.mp hle))]
      exact heq

/-- Appending once for each account of a list without repetition adds one entry to the log
of each account of the list and leaves the other logs alone. -/
theorem account_history_index.foldl_append_apply (op : operation) (v : Bool) (bh pos : Nat)
    (l : List account_name_type) (hl : l.Nodup) (idx : account_history_index)
    (a : account_name_type) :
    (l.foldl (fun i x => (account_history_index.append i x op v bh pos).1) idx) a =
      if a ∈ l then
        idx a ++ [⟨a, account_history_index.next_sequence_number (idx a), op, v, bh, pos⟩]
      else idx a := by
  induction l generalizing idx with
  | nil => simp
  | cons x xs ih =>
    have hx := List.nodup_cons.mp hl
    rw [List.foldl_cons, ih hx.2]
    by_cases hax : a = x
    · subst hax
      simp [account_history_index.append, hx.1]
    · by_cases hmem : a ∈ xs
      · simp [account_history_index.append, hax, hmem]
      · simp [account_history_index.append, hax, hmem]

theorem account_history_index.append_all_sequence_numbers (a : account_name_type)
    (ops : List (operation × Nat × Nat)) (idx : account_history_index) :
    ((account_history_index.append_all idx a ops) a).map (fun e => e.sequence_number) =
      (idx a).map (fun e => e.sequence_number) ++
        List.range' (account_history_index.next_sequence_number (idx a)) ops.length := by
  induction ops generalizing idx with
  | nil => simp [account_history_index.append_all]
  | cons o os ih =>
    have h := ih (account_history_index.append idx a o.1 o.1.is_virtual o.2.1 o.2.2).1
    simp only [account_history_index.append_all, List.foldl_cons] at h ⊢
    rw [h]
    simp only [account_history_index.append, if_true, List.map_append, List.map_cons,
      List.map_nil, account_history_index.next_sequence_number_append, List.length_cons,
      List.range'_succ, List.append_assoc, List.singleton_append]
    rw [max_eq_right (Nat.le_succ _)]

/-! ## Claims -/

/-- C1: for every transfer operation, the call on an empty result set yields exactly the
set of the sender `from` and the recipient `to`, stored as a valid flat set; a transfer from
alice to bob yields alice and bob and nothing else. -/
theorem transfer_impacted_accounts (op : transfer_operation) :
    (∀ a, a ∈ operation_get_impacted_accounts (.transfer op) [] ↔ a = op.«from» ∨ a = op.«to») ∧
    flat_set.valid (operation_get_impacted_accounts (.transfer op) []) ∧
    operation_get_impacted_accounts
      (.transfer { «from» := acct "alice", «to» := acct "bob" }) [] =
        [acct "alice", acct "bob"] := by
  refine ⟨?_, valid_operation_get_impacted_accounts _ _ flat_set.valid_nil, by decide⟩
  intro a
  simp only [operation_get_impacted_accounts, get_impacted_account_visitor,
    flat_set.mem_insert, List.not_mem_nil, or_false]
  tauto

/-- C2: for every vote operation, the call on an empty result set yields exactly the set of
the voter and the author of the content, stored as a valid flat set; carol voting on a post
of dave yields carol and dave and nothing else. -/
theorem vote_impacted_accounts (op : vote_operation) :
    (∀ a, a ∈ operation_get_impacted_accounts (.vote op) [] ↔ a = op.voter ∨ a = op.author) ∧
    flat_set.valid (operation_get_impacted_accounts (.vote op) []) ∧
    operation_get_impacted_accounts
      (.vote { voter := acct "carol", author := acct "dave" }) [] =
        [acct "carol", acct "dave"] := by
  refine ⟨?_, valid_operation_get_impacted_accounts _ _ flat_set.valid_nil, by decide⟩
  intro a
  simp only [operation_get_impacted_accounts, get_impacted_account_visitor,
    flat_set.mem_insert, List.not_mem_nil, or_false]
  tauto

/-- C3: for each of the four escrow kinds (transfer, approve, dispute, release) the call on
an empty result set yields exactly the set of `from`, `to` and `agent`, and for approve,
dispute and release the result is the same whatever account `who` names. -/
theorem escrow_impacted_accounts :
    (∀ (op : escrow_transfer_operation) (a : account_name_type),
      a ∈ operation_get_impacted_accounts (.escrow_transfer op) [] ↔
        a = op.«from» ∨ a = op.«to» ∨ a = op.agent) ∧
    (∀ (op : escrow_approve_operation) (a : account_name_type),
      a ∈ operation_get_impacted_accounts (.escrow_approve op) [] ↔
        a = op.«from» ∨ a = op.«to» ∨ a = op.agent) ∧
    (∀ (op : escrow_dispute_operation) (a : account_name_type),
      a ∈ operation_get_impacted_accounts (.escrow_dispute op) [] ↔
        a = op.«from» ∨ a = op.«to» ∨ a = op.agent) ∧
    (∀ (op : escrow_release_operation) (a : account_name_type),
      a ∈ operation_get_impacted_accounts (.escrow_release op) [] ↔
        a = op.«from» ∨ a = op.«to» ∨ a = op.agent) ∧
    (∀ (op : escrow_approve_operation) (w : account_name_type),
      operation_get_impacted_accounts (.escrow_approve { op with who := w }) [] =
        operation_get_impacted_accounts (.escrow_approve op) []) ∧
    (∀ (op : escrow_dispute_operation) (w : account_name_type),
      operation_get_impacted_accounts (.escrow_dispute { op with who := w }) [] =
        operation_get_impacted_accounts (.escrow_dispute op) []) ∧
    (∀ (op : escrow_release_operation) (w : account_name_type),
      operation_get_impacted_accounts (.escrow_release { op with who := w }) [] =
        operation_get_impacted_accounts (.escrow_release op) []) := by
  refine ⟨?_, ?_, ?_, ?_, ?_, ?_, ?_⟩
  · intro op a
    simp only [operation_get_impacted_accounts, get_impacted_account_visitor,
      flat_set.mem_insert, List.not_mem_nil, or_false]
    tauto
  · intro op a
    simp only [operation_get_impacted_accounts, get_impacted_account_visitor,
      flat_set.mem_insert, List.not_mem_nil, or_false]
    tauto
  · intro op a
    simp only [operation_get_impacted_accounts, get_impacted_account_visitor,
      flat_set.mem_insert, List.not_mem_nil, or_false]
    tauto
  · intro op a
    simp only [operation_get_impacted_accounts, get_impacted_account_visitor,
      flat_set.mem_insert, List.not_mem_nil, or_false]
    tauto
  · intro op w
    rfl
  · intro op w
    rfl
  · intro op w
    rfl

/-- C4: for every fill_order operation, a virtual kind, the call on an empty result set
yields exactly the set of `current_owner` and `open_owner`; the authority accessor names no
account for it; a fill between eve and frank yields eve and frank and nothing else. -/
theorem fill_order_impacted_accounts (op : fill_order_operation) :
    (∀ a, a ∈ operation_get_impacted_accounts (.fill_order op) [] ↔
      a = op.current_owner ∨ a = op.open_owner) ∧
    (operation.fill_order op).is_virtual = true ∧
    (operation.fill_order op).required_authorities = [] ∧
    operation_get_impacted_accounts
      (.fill_order { current_owner := acct "eve", open_owner := acct "frank" }) [] =
        [acct "eve", acct "frank"] := by
  refine ⟨?_, rfl, rfl, by decide⟩
  intro a
  simp only [operation_get_impacted_accounts, get_impacted_account_visitor,
    flat_set.mem_insert, List.not_mem_nil, or_false]
  tauto

/-- C5: for every operation of a kind without an overload of its own, the call on an empty
result set yields exactly the union of the three sets that the posting, active and owner
authority methods of the operation produce. -/
theorem default_impacted_accounts (v : Bool) (op : base_operation) (a : account_name_type) :
    a ∈ operation_get_impacted_accounts (.other v op) [] ↔
      a ∈ op.get_required_posting_authorities [] ∨
      a ∈ op.get_required_active_authorities [] ∨
      a ∈ op.get_required_owner_authorities [] := by
  simp only [operation_get_impacted_accounts, get_impacted_account_visitor,
    base_operation.get_required_posting_authorities,
    base_operation.get_required_active_authorities,
    base_operation.get_required_owner_authorities,
    flat_set.mem_insert_all, List.not_mem_nil, or_false]
  tauto

/-- C7, as stated, fails: a custom operation that lists no required authority yields the
empty set. -/
theorem impacted_nonempty_counterexample :
    ¬ (∀ op : operation, operation_get_impacted_accounts op [] ≠ []) := by
  intro h
  exact h (.custom { required_auths := [] }) rfl

/-- C7, amended: the call on an empty result set yields the empty set in two cases only, a
custom operation with no entry in `required_auths` and an operation under the generic
overload whose three authority methods name no account; every operation of another kind
yields a non-empty set. -/
theorem impacted_empty_iff (op : operation) :
    operation_get_impacted_accounts op [] = [] ↔
      (∃ c : custom_operation, op = .custom c ∧ c.required_auths = []) ∨
      (∃ (v : Bool) (b : base_operation), op = .other v b ∧ b.posting_authorities = [] ∧
        b.active_authorities = [] ∧ b.owner_authorities = []) := by
  by_cases ho : ∃ (v : Bool) (b : base_operation), op = .other v b
  · obtain ⟨v, b, rfl⟩ := ho
    have hb : operation_get_impacted_accounts (.other v b) [] = [] ↔
        b.posting_authorities = [] ∧ b.active_authorities = [] ∧ b.owner_authorities = [] := by
      simp only [operation_get_impacted_accounts, get_impacted_account_visitor,
        base_operation.get_required_posting_authorities,
        base_operation.get_required_active_authorities,
        base_operation.get_required_owner_authorities, flat_set.insert_all_eq_nil]
      tauto
    rw [hb]
    constructor
    · intro h
      exact Or.inr ⟨v, b, rfl, h⟩
    · rintro (⟨c, hc, _⟩ | ⟨v2, b2, hc, h⟩)
      · exact operation.noConfusion hc
      · cases hc
        exact h
  · cases op <;>
      first
        | (simp only [operation_get_impacted_accounts, get_impacted_account_visitor]
           split <;> simp [flat_set.insert_ne_nil])
        | (simp [operation_get_impacted_accounts, get_impacted_account_visitor,
            flat_set.insert_ne_nil, flat_set.insert_all_eq_nil]
           done)
        | exact (ho ⟨_, _, rfl⟩).elim

/-- C8: for every transaction, an account is in the set the call on an empty result set
yields iff the call on an empty result set for some operation of the transaction yields
it; the result is a valid flat set, and the transaction without operations gives the empty
set. -/
theorem transaction_impacted_accounts (tx : transaction) :
    (∀ a, a ∈ transaction_get_impacted_accounts tx [] ↔
      ∃ op ∈ tx.operations, a ∈ operation_get_impacted_accounts op []) ∧
    flat_set.valid (transaction_get_impacted_accounts tx []) ∧
    transaction_get_impacted_accounts ⟨[]⟩ [] = [] := by
  cases tx with
  | mk ops =>
    refine ⟨?_, valid_transaction_get_impacted_accounts ops [] flat_set.valid_nil, rfl⟩
    intro a
    rw [mem_transaction_get_impacted_accounts]
    simp

/-- C9: the aggregate does not depend on the order or the multiplicity of the operations:
two transactions whose operation sequences are permutations of each other give the same
flat set, a transaction in which an operation already present is repeated at any position
gives the same flat set, and in general so do two transactions that have the same
operations. -/
theorem transaction_impacted_order_multiplicity (tx1 tx2 : transaction) :
    (tx1.operations.Perm tx2.operations →
      transaction_get_impacted_accounts tx1 [] = transaction_get_impacted_accounts tx2 []) ∧
    (∀ (op : operation) (pre post : List operation), op ∈ tx1.operations →
      tx1.operations = pre ++ post →
      transaction_get_impacted_accounts ⟨pre ++ op :: post⟩ [] =
        transaction_get_impacted_accounts tx1 []) ∧
    ((∀ op, op ∈ tx1.operations ↔ op ∈ tx2.operations) →
      transaction_get_impacted_accounts tx1 [] = transaction_get_impacted_accounts tx2 []) := by
  cases tx1 with
  | mk ops1 =>
    cases tx2 with
    | mk ops2 =>
      refine ⟨?_, ?_, ?_⟩
      · intro hp
        exact transaction_get_impacted_accounts_congr ops1 ops2 (fun op => hp.mem_iff)
      · intro op pre post hop hsplit
        apply transaction_get_impacted_accounts_congr
        intro o
        simp only at hop hsplit
        subst hsplit
        simp only [List.mem_append, List.mem_cons] at hop ⊢
        constructor
        · rintro (h | rfl | h)
          · exact Or.inl h
          · exact hop
          · exact Or.inr h
        · rintro (h | h)
          · exact Or.inl h
          · exact Or.inr (Or.inr h)
      · intro h
        exact transaction_get_impacted_accounts_congr ops1 ops2 h

theorem transaction_impacted_order_multiplicity_witness :
    transaction_get_impacted_accounts
        ⟨[.transfer { «from» := acct "alice", «to» := acct "bob" },
          .vote { voter := acct "carol", author := acct "alice" }]⟩ [] =
      transaction_get_impacted_accounts
        ⟨[.vote { voter := acct "carol", author := acct "alice" },
          .transfer { «from» := acct "alice", «to» := acct "bob" }]⟩ [] ∧
    transaction_get_impacted_accounts
        ⟨[.transfer { «from» := acct "alice", «to» := acct "bob" },
          .transfer { «from» := acct "alice", «to» := acct "bob" },
          .vote { voter := acct "carol", author := acct "alice" }]⟩ [] =
      transaction_get_impacted_accounts
        ⟨[.transfer { «from» := acct "alice", «to» := acct "bob" },
          .vote { voter := acct "carol", author := acct "alice" }]⟩ [] :=
  ⟨(transaction_impacted_order_multiplicity
      ⟨[.transfer { «from» := acct "alice", «to» := acct "bob" },
        .vote { voter := acct "carol", author := acct "alice" }]⟩
      ⟨[.vote { voter := acct "carol", author := acct "alice" },
        .transfer { «from» := acct "alice", «to» := acct "bob" }]⟩).1
      (List.Perm.swap _ _ []),
    (transaction_impacted_order_multiplicity
      ⟨[.transfer { «from» := acct "alice", «to» := acct "bob" },
        .vote { voter := acct "carol", author := acct "alice" }]⟩ ⟨[]⟩).2.1
      (.transfer { «from» := acct "alice", «to» := acct "bob" })
      [.transfer { «from» := acct "alice", «to» := acct "bob" }]
      [.vote { voter := acct "carol", author := acct "alice" }]
      (List.mem_cons_self _ _) rfl⟩

/-- C10: for every transfer_to_vesting operation, the call on an empty result set yields
the set of `from` and `to` when `to` is not the empty name and differs from `from`, and the
set of `from` alone when `to` is the empty name or equals `from`. -/
theorem transfer_to_vesting_impacted_accounts (op : transfer_to_vesting_operation) :
    (op.«to» ≠ account_name_type.empty ∧ op.«to» ≠ op.«from» →
      ∀ a, a ∈ operation_get_impacted_accounts (.transfer_to_vesting op) [] ↔
        a = op.«from» ∨ a = op.«to») ∧
    (op.«to» = account_name_type.empty ∨ op.«to» = op.«from» →
      operation_get_impacted_accounts (.transfer_to_vesting op) [] = [op.«from»]) := by
  constructor
  · intro h a
    simp only [operation_get_impacted_accounts, get_impacted_account_visitor, if_pos h,
      flat_set.mem_insert, List.not_mem_nil, or_false]
    tauto
  · intro h
    have hn : ¬ (op.«to» ≠ account_name_type.empty ∧ op.«to» ≠ op.«from») := by
      rintro ⟨h1, h2⟩
      rcases h with h | h
      · exact h1 h
      · exact h2 h
    simp only [operation_get_impacted_accounts, get_impacted_account_visitor, if_neg hn]
    rfl

theorem transfer_to_vesting_impacted_accounts_witness :
    (∀ a, a ∈ operation_get_impacted_accounts
        (.transfer_to_vesting { «from» := acct "alice", «to» := acct "bob" }) [] ↔
          a = acct "alice" ∨ a = acct "bob") ∧
    operation_get_impacted_accounts
        (.transfer_to_vesting { «from» := acct "alice", «to» := acct "" }) [] = [acct "alice"] ∧
    operation_get_impacted_accounts
        (.transfer_to_vesting { «from» := acct "alice", «to» := acct "alice" }) [] =
          [acct "alice"] :=
  ⟨(transfer_to_vesting_impacted_accounts
      { «from» := acct "alice", «to» := acct "bob" }).1 (by decide),
    (transfer_to_vesting_impacted_accounts
      { «from» := acct "alice", «to» := acct "" }).2 (Or.inl rfl),
    (transfer_to_vesting_impacted_accounts
      { «from» := acct "alice", «to» := acct "alice" }).2 (Or.inr rfl)⟩

/-- C11: for every comment operation, the call on an empty result set yields the set of
`author` and `parent_author` when the post is a reply (`parent_author` is not the empty
name), and the set of `author` alone when it is a root post (`parent_author` is empty). -/
theorem comment_impacted_accounts (op : comment_operation) :
    (op.parent_author ≠ account_name_type.empty →
      ∀ a, a ∈ operation_get_impacted_accounts (.comment op) [] ↔
        a = op.author ∨ a = op.parent_author) ∧
    (op.parent_author = account_name_type.empty →
      operation_get_impacted_accounts (.comment op) [] = [op.author]) := by
  constructor
  · intro h a
    have hs : op.parent_author.size ≠ 0 := fun h0 =>
      h ((account_name_type.size_eq_zero _).mp h0)
    simp only [operation_get_impacted_accounts, get_impacted_account_visitor, if_pos hs,
      flat_set.mem_insert, List.not_mem_nil, or_false]
    tauto
  · intro h
    have hs : ¬ op.parent_author.size ≠ 0 := fun h0 =>
      h0 ((account_name_type.size_eq_zero _).mpr h)
    simp only [operation_get_impacted_accounts, get_impacted_account_visitor, if_neg hs]
    rfl

theorem comment_impacted_accounts_witness :
    (∀ a, a ∈ operation_get_impacted_accounts
        (.comment { parent_author := acct "dave", author := acct "carol" }) [] ↔
          a = acct "carol" ∨ a = acct "dave") ∧
    operation_get_impacted_accounts
        (.comment { parent_author := acct "", author := acct "carol" }) [] = [acct "carol"] :=
  ⟨(comment_impacted_accounts
      { parent_author := acct "dave", author := acct "carol" }).1 (by decide),
    (comment_impacted_accounts
      { parent_author := acct "", author := acct "carol" }).2 rfl⟩

/-- C12: for every custom operation, the call on an empty result set yields exactly the
accounts listed in `required_auths`, as a valid flat set: each listed account is in the
result and no other account is. -/
theorem custom_impacted_accounts (op : custom_operation) :
    (∀ a, a ∈ operation_get_impacted_accounts (.custom op) [] ↔ a ∈ op.required_auths) ∧
    flat_set.valid (operation_get_impacted_accounts (.custom op) []) := by
  refine ⟨?_, valid_operation_get_impacted_accounts _ _ flat_set.valid_nil⟩
  intro a
  simp only [operation_get_impacted_accounts, get_impacted_account_visitor,
    flat_set.mem_insert_all, List.not_mem_nil, or_false]

/-- C13: for every account_create operation, the call on an empty result set yields exactly
the set of `new_account_name` and `creator`. -/
theorem account_create_impacted_accounts (op : account_create_operation) :
    (∀ a, a ∈ operation_get_impacted_accounts (.account_create op) [] ↔
      a = op.new_account_name ∨ a = op.creator) ∧
    flat_set.valid (operation_get_impacted_accounts (.account_create op) []) := by
  refine ⟨?_, valid_operation_get_impacted_accounts _ _ flat_set.valid_nil⟩
  intro a
  simp only [operation_get_impacted_accounts, get_impacted_account_visitor,
    flat_set.mem_insert, List.not_mem_nil, or_false]
  tauto

/-- C14: for every account_witness_vote operation the call on an empty result set yields
exactly the set of `account` and `witness`, and for every account_witness_proxy operation
exactly the set of `account` and `proxy`. -/
theorem witness_vote_proxy_impacted_accounts :
    (∀ (op : account_witness_vote_operation) (a : account_name_type),
      a ∈ operation_get_impacted_accounts (.account_witness_vote op) [] ↔
        a = op.account ∨ a = op.witness) ∧
    (∀ (op : account_witness_proxy_operation) (a : account_name_type),
      a ∈ operation_get_impacted_accounts (.account_witness_proxy op) [] ↔
        a = op.account ∨ a = op.proxy) := by
  constructor
  · intro op a
    simp only [operation_get_impacted_accounts, get_impacted_account_visitor,
      flat_set.mem_insert, List.not_mem_nil, or_false]
    tauto
  · intro op a
    simp only [operation_get_impacted_accounts, get_impacted_account_visitor,
      flat_set.mem_insert, List.not_mem_nil, or_false]
    tauto

/-- C15: for every transfer_to_savings and every transfer_from_savings operation the call on
an empty result set yields exactly the set of `from` and `to`; for every
cancel_transfer_from_savings operation it yields `from` alone. -/
theorem savings_impacted_accounts :
    (∀ (op : transfer_to_savings_operation) (a : account_name_type),
      a ∈ operation_get_impacted_accounts (.transfer_to_savings op) [] ↔
        a = op.«from» ∨ a = op.«to») ∧
    (∀ (op : transfer_from_savings_operation) (a : account_name_type),
      a ∈ operation_get_impacted_accounts (.transfer_from_savings op) [] ↔
        a = op.«from» ∨ a = op.«to») ∧
    (∀ op : cancel_transfer_from_savings_operation,
      operation_get_impacted_accounts (.cancel_transfer_from_savings op) [] = [op.«from»]) := by
  refine ⟨?_, ?_, ?_⟩
  · intro op a
    simp only [operation_get_impacted_accounts, get_impacted_account_visitor,
      flat_set.mem_insert, List.not_mem_nil, or_false]
    tauto
  · intro op a
    simp only [operation_get_impacted_accounts, get_impacted_account_visitor,
      flat_set.mem_insert, List.not_mem_nil, or_false]
    tauto
  · intro op
    rfl

/-- C16: for every ledger-generated operation the call on an empty result set yields what
its rule names and nothing else: author_reward the author, curation_reward the curator,
liquidity_reward, interest, fill_convert_request and shutdown_witness the owner, and
fill_vesting_withdraw the set of `from_account` and `to_account`. -/
theorem virtual_impacted_accounts :
    (∀ op : author_reward_operation,
      operation_get_impacted_accounts (.author_reward op) [] = [op.author]) ∧
    (∀ op : curation_reward_operation,
      operation_get_impacted_accounts (.curation_reward op) [] = [op.curator]) ∧
    (∀ op : liquidity_reward_operation,
      operation_get_impacted_accounts (.liquidity_reward op) [] = [op.owner]) ∧
    (∀ op : interest_operation,
      operation_get_impacted_accounts (.interest op) [] = [op.owner]) ∧
    (∀ op : fill_convert_request_operation,
      operation_get_impacted_accounts (.fill_convert_request op) [] = [op.owner]) ∧
    (∀ op : shutdown_witness_operation,
      operation_get_impacted_accounts (.shutdown_witness op) [] = [op.owner]) ∧
    (∀ (op : fill_vesting_withdraw_operation) (a : account_name_type),
      a ∈ operation_get_impacted_accounts (.fill_vesting_withdraw op) [] ↔
        a = op.from_account ∨ a = op.to_account) := by
  refine ⟨fun _ => rfl, fun _ => rfl, fun _ => rfl, fun _ => rfl, fun _ => rfl,
    fun _ => rfl, ?_⟩
  intro op a
  simp only [operation_get_impacted_accounts, get_impacted_account_visitor,
    flat_set.mem_insert, List.not_mem_nil, or_false]
  tauto

/-- C17: for every operation of a single-party user kind the call on an empty result set
yields the one account its rule names: account_update the account, delete_comment the
author, withdraw_vesting the account, witness_update the owner, feed_publish the publisher,
limit_order_create and limit_order_cancel the owner, pow the worker account, and
decline_voting_rights the account. -/
theorem single_party_impacted_accounts :
    (∀ op : account_update_operation,
      operation_get_impacted_accounts (.account_update op) [] = [op.account]) ∧
    (∀ op : delete_comment_operation,
      operation_get_impacted_accounts (.delete_comment op) [] = [op.author]) ∧
    (∀ op : withdraw_vesting_operation,
      operation_get_impacted_accounts (.withdraw_vesting op) [] = [op.account]) ∧
    (∀ op : witness_update_operation,
      operation_get_impacted_accounts (.witness_update op) [] = [op.owner]) ∧
    (∀ op : feed_publish_operation,
      operation_get_impacted_accounts (.feed_publish op) [] = [op.publisher]) ∧
    (∀ op : limit_order_create_operation,
      operation_get_impacted_accounts (.limit_order_create op) [] = [op.owner]) ∧
    (∀ op : limit_order_cancel_operation,
      operation_get_impacted_accounts (.limit_order_cancel op) [] = [op.owner]) ∧
    (∀ op : pow_operation,
      operation_get_impacted_accounts (.pow op) [] = [op.worker_account]) ∧
    (∀ op : decline_voting_rights_operation,
      operation_get_impacted_accounts (.decline_voting_rights op) [] = [op.account]) :=
  ⟨fun _ => rfl, fun _ => rfl, fun _ => rfl, fun _ => rfl, fun _ => rfl, fun _ => rfl,
    fun _ => rfl, fun _ => rfl, fun _ => rfl⟩

/-- C18: for every request_account_recovery, recover_account and change_recovery_account
operation the call on an empty result set yields `account_to_recover` alone; the recovery
account of a request, and the new recovery account of a change, is in the result only when
it is the account to recover itself. -/
theorem recovery_impacted_accounts :
    (∀ op : request_account_recovery_operation,
      operation_get_impacted_accounts (.request_account_recovery op) [] =
        [op.account_to_recover]) ∧
    (∀ op : recover_account_operation,
      operation_get_impacted_accounts (.recover_account op) [] = [op.account_to_recover]) ∧
    (∀ op : change_recovery_account_operation,
      operation_get_impacted_accounts (.change_recovery_account op) [] =
        [op.account_to_recover]) ∧
    (∀ op : request_account_recovery_operation,
      op.recovery_account ∈ operation_get_impacted_accounts (.request_account_recovery op) [] ↔
        op.recovery_account = op.account_to_recover) ∧
    (∀ op : change_recovery_account_operation,
      op.new_recovery_account ∈
          operation_get_impacted_accounts (.change_recovery_account op) [] ↔
        op.new_recovery_account = op.account_to_recover) := by
  refine ⟨fun _ => rfl, fun _ => rfl, fun _ => rfl, ?_, ?_⟩
  · intro op
    simp only [operation_get_impacted_accounts, get_impacted_account_visitor,
      flat_set.mem_insert, List.not_mem_nil, or_false]
  · intro op
    simp only [operation_get_impacted_accounts, get_impacted_account_visitor,
      flat_set.mem_insert, List.not_mem_nil, or_false]

/-- C19: the impacted set holds each account once: the call on an empty result set yields,
for every operation and for every transaction, a list without a repeated name. A transfer
from an account to itself and a vote of an author on their own content yield that one
account, an escrow whose agent is also the recipient holds the recipient once, and two
operations of one transaction that impact the same accounts give each account once. -/
theorem impacted_accounts_nodup :
    (∀ op : operation, (operation_get_impacted_accounts op []).Nodup) ∧
    (∀ tx : transaction, (transaction_get_impacted_accounts tx []).Nodup) ∧
    (∀ x : account_name_type,
      operation_get_impacted_accounts (.transfer { «from» := x, «to» := x }) [] = [x]) ∧
    (∀ x : account_name_type,
      operation_get_impacted_accounts (.vote { voter := x, author := x }) [] = [x]) ∧
    (∀ x y : account_name_type,
      (operation_get_impacted_accounts
        (.escrow_transfer { «from» := x, «to» := y, agent := y }) []).count y = 1) ∧
    transaction_get_impacted_accounts
      ⟨[.transfer { «from» := acct "alice", «to» := acct "bob" },
        .transfer { «from» := acct "bob", «to» := acct "alice" }]⟩ [] =
        [acct "alice", acct "bob"] := by
  have hop : ∀ op : operation, (operation_get_impacted_accounts op []).Nodup := fun op =>
    List.Sorted.nodup (valid_operation_get_impacted_accounts op [] flat_set.valid_nil)
  refine ⟨hop, ?_, ?_, ?_, ?_, by decide⟩
  · intro tx
    cases tx with
    | mk ops =>
      exact List.Sorted.nodup (valid_transaction_get_impacted_accounts ops [] flat_set.valid_nil)
  · intro x
    simp [operation_get_impacted_accounts, get_impacted_account_visitor, flat_set.insert]
  · intro x
    simp [operation_get_impacted_accounts, get_impacted_account_visitor, flat_set.insert]
  · intro x y
    apply List.count_eq_one_of_mem (hop _)
    simp only [operation_get_impacted_accounts, get_impacted_account_visitor,
      flat_set.mem_insert, List.not_mem_nil, or_false]
    tauto

/-- C20: resolution is deterministic: two calls on the same operation, each on an empty
result set, yield the identical set, and a second call on that operation into the set the
first call filled leaves the set as it is. -/
theorem operation_get_impacted_accounts_deterministic (op1 op2 : operation)
    (h : op1 = op2) :
    operation_get_impacted_accounts op1 [] = operation_get_impacted_accounts op2 [] ∧
    operation_get_impacted_accounts op2 (operation_get_impacted_accounts op1 []) =
      operation_get_impacted_accounts op1 [] := by
  subst h
  exact ⟨rfl, operation_get_impacted_accounts_idem op1 [] flat_set.valid_nil⟩

theorem operation_get_impacted_accounts_deterministic_witness :
    operation_get_impacted_accounts
        (.transfer { «from» := acct "alice", «to» := acct "bob" }) [] =
      operation_get_impacted_accounts
        (.transfer { «from» := acct "alice", «to» := acct "bob" }) [] ∧
    operation_get_impacted_accounts
        (.transfer { «from» := acct "alice", «to» := acct "bob" })
        (operation_get_impacted_accounts
          (.transfer { «from» := acct "alice", «to» := acct "bob" }) []) =
      operation_get_impacted_accounts
        (.transfer { «from» := acct "alice", «to» := acct "bob" }) [] :=
  operation_get_impacted_accounts_deterministic
    (.transfer { «from» := acct "alice", «to» := acct "bob" })
    (.transfer { «from» := acct "alice", «to» := acct "bob" }) rfl

/-- C23: accumulation only adds. For every operation and every initial result set, an
account is in the set after the call iff it was in the set before or the call on the empty
set yields it, so no account is removed; the same holds for a transaction and its
aggregate; a valid flat set stays valid; and a second call on the same operation into a
valid set changes nothing. -/
theorem impacted_accounts_accumulate (op : operation) (tx : transaction) (R : flat_set) :
    (∀ a, a ∈ operation_get_impacted_accounts op R ↔
      a ∈ R ∨ a ∈ operation_get_impacted_accounts op []) ∧
    (∀ a, a ∈ R → a ∈ operation_get_impacted_accounts op R) ∧
    (∀ a, a ∈ transaction_get_impacted_accounts tx R ↔
      a ∈ R ∨ a ∈ transaction_get_impacted_accounts tx []) ∧
    (∀ a, a ∈ R → a ∈ transaction_get_impacted_accounts tx R) ∧
    (flat_set.valid R →
      flat_set.valid (operation_get_impacted_accounts op R) ∧
      flat_set.valid (transaction_get_impacted_accounts tx R) ∧
      operation_get_impacted_accounts op (operation_get_impacted_accounts op R) =
        operation_get_impacted_accounts op R) := by
  cases tx with
  | mk ops =>
    have htx : ∀ a, a ∈ transaction_get_impacted_accounts ⟨ops⟩ R ↔
        a ∈ R ∨ a ∈ transaction_get_impacted_accounts ⟨ops⟩ [] := by
      intro a
      rw [mem_transaction_get_impacted_accounts ops R a,
        mem_transaction_get_impacted_accounts ops [] a]
      simp only [List.not_mem_nil, false_or]
    refine ⟨mem_operation_get_impacted_accounts op R, ?_, htx, ?_, ?_⟩
    · intro a ha
      exact (mem_operation_get_impacted_accounts op R a).mpr (Or.inl ha)
    · intro a ha
      exact (htx a).mpr (Or.inl ha)
    · intro hR
      exact ⟨valid_operation_get_impacted_accounts op R hR,
        valid_transaction_get_impacted_accounts ops R hR,
        operation_get_impacted_accounts_idem op R hR⟩

theorem impacted_accounts_accumulate_witness :
    flat_set.valid (operation_get_impacted_accounts
        (.transfer { «from» := acct "alice", «to» := acct "bob" }) [acct "zoe"]) ∧
    flat_set.valid (transaction_get_impacted_accounts
        ⟨[.vote { voter := acct "carol", author := acct "dave" }]⟩ [acct "zoe"]) ∧
    operation_get_impacted_accounts
        (.transfer { «from» := acct "alice", «to» := acct "bob" })
        (operation_get_impacted_accounts
          (.transfer { «from» := acct "alice", «to» := acct "bob" }) [acct "zoe"]) =
      operation_get_impacted_accounts
        (.transfer { «from» := acct "alice", «to» := acct "bob" }) [acct "zoe"] :=
  (impacted_accounts_accumulate
    (.transfer { «from» := acct "alice", «to» := acct "bob" })
    ⟨[.vote { voter := acct "carol", author := acct "dave" }]⟩ [acct "zoe"]).2.2.2.2
    (by simp [flat_set.valid])

/-- C25: the test `op.to != op.from` of the transfer_to_vesting overload is redundant: for
every transfer_to_vesting operation and every set, the overload leaves the same set as the
simpler rule that inserts `from` and inserts `to` iff `to` is not the empty name. -/
theorem transfer_to_vesting_refines_simple_rule (op : transfer_to_vesting_operation)
    (R : flat_set) :
    operation_get_impacted_accounts (.transfer_to_vesting op) R =
      transfer_to_vesting_simple_rule op R := by
  simp only [operation_get_impacted_accounts, get_impacted_account_visitor,
    transfer_to_vesting_simple_rule]
  by_cases h1 : op.«to» = account_name_type.empty
  · simp [h1]
  · by_cases h2 : op.«to» = op.«from»
    · simp only [h2, ne_eq, not_true_eq_false, and_false, if_false]
      rw [h2] at h1
      simp only [h1, not_false_eq_true, if_true]
      exact (flat_set.insert_insert_self _ _).symm
    · simp [h1, h2]

/-- C26: the account_witness_proxy overload has no emptiness guard: an operation that clears
the proxy (its `proxy` is the empty name) yields the empty name next to the account, as for
alice, whereas the comment and the transfer_to_vesting overload yield the author, or the
sender, alone when the parent author, or the recipient, is the empty name. -/
theorem account_witness_proxy_inserts_empty_name :
    operation_get_impacted_accounts
      (.account_witness_proxy { account := acct "alice", proxy := account_name_type.empty }) [] =
        [account_name_type.empty, acct "alice"] ∧
    (∀ op : account_witness_proxy_operation,
      op.account ∈ operation_get_impacted_accounts (.account_witness_proxy op) [] ∧
      op.proxy ∈ operation_get_impacted_accounts (.account_witness_proxy op) []) ∧
    (∀ author : account_name_type,
      operation_get_impacted_accounts
        (.comment { parent_author := account_name_type.empty, author := author }) [] =
          [author]) ∧
    (∀ sender : account_name_type,
      operation_get_impacted_accounts
        (.transfer_to_vesting { «from» := sender, «to» := account_name_type.empty }) [] =
          [sender]) := by
  refine ⟨by decide, ?_, fun _ => rfl, fun _ => rfl⟩
  intro op
  simp only [operation_get_impacted_accounts, get_impacted_account_visitor,
    flat_set.mem_insert, List.not_mem_nil, or_false]
  tauto

/-- C24: a rule reads the account-name fields it names and nothing else. Two operations of
the same kind with an overload of its own that agree on those fields leave the same set,
whatever their other fields and whatever their authority methods return; so do two transfers
with the same sender and recipient, and two escrow approvals with the same three parties
whatever account `who` names. -/
theorem rule_reads_named_fields_only (o1 o2 : operation) (R : flat_set)
    (h : o1.same_rule_fields o2) :
    operation_get_impacted_accounts o1 R = operation_get_impacted_accounts o2 R := by
  cases o1 <;> cases o2 <;>
    first
      | exact h.elim
      | (simp only [operation.same_rule_fields] at h
         simp only [operation_get_impacted_accounts, get_impacted_account_visitor, h])

theorem rule_reads_named_fields_only_witness :
    operation_get_impacted_accounts
        (.transfer { «from» := acct "alice", «to» := acct "bob", amount := 5, memo := "rent",
                     active_authorities := [acct "alice"] }) [] =
      operation_get_impacted_accounts
        (.transfer { «from» := acct "alice", «to» := acct "bob", amount := 70, memo := "",
                     active_authorities := [acct "mallory"] }) [] ∧
    operation_get_impacted_accounts
        (.escrow_approve { «from» := acct "alice", «to» := acct "bob", agent := acct "carol",
                           who := acct "bob" }) [] =
      operation_get_impacted_accounts
        (.escrow_approve { «from» := acct "alice", «to» := acct "bob", agent := acct "carol",
                           who := acct "carol", active_authorities := [acct "carol"] }) [] :=
  ⟨rule_reads_named_fields_only _ _ [] ⟨rfl, rfl⟩,
    rule_reads_named_fields_only _ _ [] ⟨rfl, rfl, rfl⟩⟩

theorem discussion_query.validate_filter_tags_ok (select_tags filter_tags : List String) :
    discussion_query.validate_filter_tags select_tags filter_tags = .ok () ↔
      ∀ tag ∈ filter_tags, tag ∉ select_tags := by
  induction filter_tags with
  | nil => simp [discussion_query.validate_filter_tags]
  | cons tag rest ih =>
    by_cases h : tag ∈ select_tags
    · simp [discussion_query.validate_filter_tags, FC_ASSERT, h, bind, Except.bind]
    · simp [discussion_query.validate_filter_tags, FC_ASSERT, h, bind, Except.bind, ih]

/-- C27: `discussion_query::validate` succeeds iff `limit <= 100` and no tag of
`filter_tags` is in `select_tags`, and fails with an assertion otherwise; two queries with
the same `limit`, `select_tags` and `filter_tags` validate alike whatever their other
fields; and the default-constructed query validates. -/
theorem discussion_query_validate (q : discussion_query) :
    (q.validate = .ok () ↔ q.limit ≤ 100 ∧ ∀ tag ∈ q.filter_tags, tag ∉ q.select_tags) ∧
    (¬ (q.limit ≤ 100 ∧ ∀ tag ∈ q.filter_tags, tag ∉ q.select_tags) →
      ∃ text, q.validate = .error text) ∧
    (∀ q2 : discussion_query, q2.limit = q.limit → q2.select_tags = q.select_tags →
      q2.filter_tags = q.filter_tags → q2.validate = q.validate) ∧
    (({} : discussion_query).limit = 0 ∧ ({} : discussion_query).select_tags = [] ∧
      ({} : discussion_query).filter_tags = [] ∧ ({} : discussion_query).validate = .ok ()) := by
  have hiff : q.validate = .ok () ↔
      q.limit ≤ 100 ∧ ∀ tag ∈ q.filter_tags, tag ∉ q.select_tags := by
    by_cases hl : q.limit ≤ 100
    · simp [discussion_query.validate, FC_ASSERT, hl, bind, Except.bind,
        discussion_query.validate_filter_tags_ok]
    · simp [discussion_query.validate, FC_ASSERT, hl, bind, Except.bind]
  refine ⟨hiff, ?_, ?_, ⟨rfl, rfl, rfl, rfl⟩⟩
  · intro hn
    cases hv : q.validate with
    | error text => exact ⟨text, rfl⟩
    | ok u =>
      cases u
      exact absurd (hiff.mp hv) hn
  · intro q2 h1 h2 h3
    simp only [discussion_query.validate, h1, h2, h3]

theorem discussion_query_validate_witness :
    (∃ text, discussion_query.validate { limit := 101 } = .error text) ∧
    (∃ text, discussion_query.validate
      { limit := 10, select_tags := ["art", "music"], filter_tags := ["music"] } =
        .error text) ∧
    discussion_query.validate
        { limit := 100, select_tags := ["art"], filter_tags := ["spam"],
          select_authors := ["alice"], truncate_body := 7 } =
      discussion_query.validate
        { limit := 100, select_tags := ["art"], filter_tags := ["spam"] } :=
  ⟨(discussion_query_validate { limit := 101 }).2.1 (by decide),
    (discussion_query_validate
      { limit := 10, select_tags := ["art", "music"], filter_tags := ["music"] }).2.1
      (by decide),
    (discussion_query_validate
      { limit := 100, select_tags := ["art"], filter_tags := ["spam"] }).2.2.1
      { limit := 100, select_tags := ["art"], filter_tags := ["spam"],
        select_authors := ["alice"], truncate_body := 7 } rfl rfl rfl⟩

/-- C22: sequence monotonicity of the account history index. Indexing an operation adds to
the log of every impacted account exactly one entry, for that operation, under the next
sequence number of the account, and leaves the log of every other account as it is; the
next sequence number is greater than every sequence number of the log and one greater than
the greatest; appending N operations for an account yields the sequence numbers from the
next one onward, N in a row, and from the base value for an account without entries. -/
theorem account_history_sequence_monotonic (idx : account_history_index) (op : operation)
    (block_height position : Nat) (a : account_name_type)
    (ops : List (operation × Nat × Nat)) :
    (a ∈ operation_get_impacted_accounts op [] →
      idx.index_operation op block_height position a =
        idx a ++ [⟨a, account_history_index.next_sequence_number (idx a), op, op.is_virtual,
          block_height, position⟩]) ∧
    (a ∉ operation_get_impacted_accounts op [] →
      idx.index_operation op block_height position a = idx a) ∧
    (∀ e ∈ idx a, e.sequence_number < account_history_index.next_sequence_number (idx a)) ∧
    (idx a ≠ [] →
      ∃ e ∈ idx a, account_history_index.next_sequence_number (idx a) = e.sequence_number + 1) ∧
    ((idx.append_all a ops) a).map (fun e => e.sequence_number) =
      (idx a).map (fun e => e.sequence_number) ++
        List.range' (account_history_index.next_sequence_number (idx a)) ops.length ∧
    ((account_history_index.empty.append_all a ops) a).map (fun e => e.sequence_number) =
      List.range' account_history_index.base ops.length := by
  have hnodup : (operation_get_impacted_accounts op []).Nodup :=
    List.Sorted.nodup (valid_operation_get_impacted_accounts op [] flat_set.valid_nil)
  have happly := account_history_index.foldl_append_apply op op.is_virtual block_height
    position (operation_get_impacted_accounts op []) hnodup idx a
  refine ⟨?_, ?_, account_history_index.lt_next_sequence_number (idx a),
    account_history_index.next_sequence_number_eq_succ (idx a),
    account_history_index.append_all_sequence_numbers a ops idx, ?_⟩
  · intro ha
    rw [account_history_index.index_operation, happly, if_pos ha]
  · intro ha
    rw [account_history_index.index_operation, happly, if_neg ha]
  · rw [account_history_index.append_all_sequence_numbers a ops account_history_index.empty]
    rfl

theorem account_history_sequence_monotonic_witness :
    (account_history_index.index_operation ten_entries
        (.transfer { «from» := acct "alice", «to» := acct "bob" }) 2 0) (acct "alice") =
      ten_entries (acct "alice") ++
        [⟨acct "alice", account_history_index.next_sequence_number (ten_entries (acct "alice")),
          .transfer { «from» := acct "alice", «to» := acct "bob" }, false, 2, 0⟩] ∧
    (account_history_index.index_operation ten_entries
        (.transfer { «from» := acct "alice", «to» := acct "bob" }) 2 0) (acct "carol") =
      ten_entries (acct "carol") ∧
    (∃ e ∈ ten_entries (acct "alice"),
      account_history_index.next_sequence_number (ten_entries (acct "alice")) =
        e.sequence_number + 1) :=
  ⟨(account_history_sequence_monotonic ten_entries
      (.transfer { «from» := acct "alice", «to» := acct "bob" }) 2 0 (acct "alice") []).1
      (by decide),
    (account_history_sequence_monotonic ten_entries
      (.transfer { «from» := acct "alice", «to» := acct "bob" }) 2 0 (acct "carol") []).2.1
      (by decide),
    (account_history_sequence_monotonic ten_entries
      (.transfer { «from» := acct "alice", «to» := acct "bob" }) 2 0 (acct "alice") []).2.2.2.1
      (by
        intro h
        have hlen := congrArg List.length h
        revert hlen
        decide)⟩

end steemit
